import Mathlib

/-!
Shallow embedding of the pat-service-test repository's core components:
the health-check aggregator (vendor/github.com/sliide/service-healthcheck)
and the gRPC interceptor pipeline (vendor/github.com/sliide/shared-go-libs/grpcd,
internal/grpcd), together with theorems settling the specification claims.

Time is modelled in abstract ticks (a `Nat`); a Go `time.Duration` becomes an
`Int` (nanoseconds) where its sign matters and a `Nat` otherwise.  Go contexts
are modelled by the instant at which they become done: `Option Nat`, `none`
meaning the context is never canceled by its owner; an incoming context that is
already done when the call starts (time `0`) is `some 0`.
-/

namespace Healthcheck

/-- Health check state enumeration, from `state.go`
(`StateHealthy = 0`, `StateDegraded = 1`, `StateUnhealthy = 2`, `StateUnknown = 3`). -/
inductive State
| healthy
| degraded
| unhealthy
| unknown
deriving DecidableEq, Repr

/-- `stateToName` map of `state.go`, total on the four defined states. -/
def stateToName : State → String
| State.healthy => "healthy"
| State.degraded => "degraded"
| State.unhealthy => "unhealthy"
| State.unknown => "unknown"

/-- `nameToState` map lookup of `state.go`: `none` models a missing key. -/
def nameToState (s : String) : Option State :=
  if s = "healthy" then some State.healthy
  else if s = "degraded" then some State.degraded
  else if s = "unhealthy" then some State.unhealthy
  else if s = "unknown" then some State.unknown
  else none

/-- `State.String()`: the serialized string form of a state. -/
def State.toName (s : State) : String := stateToName s

/-- Body of `State.UnmarshalJSON` after the JSON string has been decoded:
returns the resulting state and the returned error (always `none`, as both
branches of the source return `nil`). -/
def unmarshalState (b : String) : State × Option String :=
  match nameToState b with
  | some v => (v, none)
  | none => (State.unknown, none)

/-- `CheckingResult` of `daemon.go` (field `State` is `state` here). -/
structure CheckingResult where
  state : State
  output : String
  name : String
  duration : Nat
deriving DecidableEq, Repr

/-- `Runtime` of `daemon.go`. -/
structure Runtime where
  host : String
  goVersion : String
  service : String
  environment : String
  version : String
deriving DecidableEq, Repr

/-- `CheckingResults` of `daemon.go`. -/
structure CheckingResults where
  checks : List CheckingResult
  duration : Nat
  runtimeInfo : Runtime
deriving DecidableEq, Repr

/-- `CheckingResults.IsHealthy`: false on an empty check list, else true iff
every check is healthy or degraded (the source loop returns false at the
first check that is neither). -/
def CheckingResults.IsHealthy (c : CheckingResults) : Bool :=
  if c.checks.length ≤ 0 then false
  else c.checks.all (fun check => check.state == State.healthy || check.state == State.degraded)

/-- `CheckingResults.IsDegraded`: false on an empty check list, else true iff
some check is degraded. -/
def CheckingResults.IsDegraded (c : CheckingResults) : Bool :=
  if c.checks.length ≤ 0 then false
  else c.checks.any (fun check => check.state == State.degraded)

/-- `CheckingResults.GetState`: unhealthy on an empty list; otherwise folds the
two flags exactly as the source loop does and branches healthy / degraded /
unhealthy. -/
def CheckingResults.GetState (c : CheckingResults) : State :=
  if c.checks.length ≤ 0 then State.unhealthy
  else
    let healthy := c.checks.foldl (fun acc check => acc && (check.state == State.healthy)) true
    let degraded := c.checks.foldl
      (fun acc check => acc && (check.state == State.healthy || check.state == State.degraded)) true
    if healthy then State.healthy
    else if degraded then State.degraded
    else State.unhealthy

/-- `DefaultTimeout = time.Second * 10` in nanoseconds. -/
def DefaultTimeout : Nat := 10000000000

/-- Observable behaviour of one `CheckingFunc` when invoked: it may return a
`*CheckingState` at some instant, return an error at some instant, panic at
some instant, or block past every deadline (`never`). -/
inductive CheckBehavior
| completes (t : Nat) (st : State) (output : String)
| fails (t : Nat) (msg : String)
| panics (t : Nat) (msg : String)
| never
deriving DecidableEq, Repr

/-- `checkFunc` of `daemon.go`: a registered named check. -/
structure CheckFunc where
  name : String
  behavior : CheckBehavior
deriving DecidableEq, Repr

/-- Model stand-in for the bytes of `debug.Stack()` inside a panicking check:
always a non-empty string. -/
def checkStackText : String := "goroutine stack trace"

/-- Internal `checkingState` of `daemon.go` (state, output, error). -/
structure CheckingStateR where
  state : State
  output : String
  errText : Option String
deriving DecidableEq, Repr

/-- Instant at which the check's inner goroutine sends on `doneChan`, and the
value sent: the goroutine wraps a returned error as unhealthy
("checking failed"), a recovered panic as unhealthy ("checking panicked"),
and forwards a returned `CheckingState` as-is; a blocked check never sends. -/
def doneEvent : CheckBehavior → Option (Nat × CheckingStateR)
| CheckBehavior.completes t st out => some (t, ⟨st, out, none⟩)
| CheckBehavior.fails t msg =>
    some (t, ⟨State.unhealthy, "checking failed: " ++ msg, some ("checking failed: " ++ msg)⟩)
| CheckBehavior.panics t msg =>
    some (t, ⟨State.unhealthy,
      "checking panicked: " ++ msg ++ ", stacktrace: " ++ checkStackText,
      some ("checking panicked: " ++ msg)⟩)
| CheckBehavior.never => none

/-- Instant at which `ctxTimeout := context.WithTimeout(ctx, timeout)` becomes
done: the per-check timeout, or the parent's cancellation if that is earlier. -/
def checkDeadline (pc : Option Nat) (timeout : Nat) : Nat :=
  match pc with
  | some p => min timeout p
  | none => timeout

/-- Result taken on the `<-ctxTimeout.Done()` branch of `runCheck`'s select:
if `ctxTimeout.Err()` equals the parent's error the parent was canceled first
("checking canceled by caller"), otherwise the per-check deadline fired
("checking timeout"); either way the reported state is unknown. -/
def checkTimeoutResult (pc : Option Nat) (timeout : Nat) : CheckingStateR :=
  match pc with
  | some p =>
      if p ≤ timeout then
        ⟨State.unknown, "checking canceled by caller: context canceled",
          some "checking canceled by caller: context canceled"⟩
      else
        ⟨State.unknown, "checking timeout: context deadline exceeded",
          some "checking timeout: context deadline exceeded"⟩
  | none =>
      ⟨State.unknown, "checking timeout: context deadline exceeded",
        some "checking timeout: context deadline exceeded"⟩

/-- `runCheck` of `daemon.go`: select between the check goroutine's done event
and `ctxTimeout.Done()`, whichever instant comes first. -/
def runCheck (pc : Option Nat) (timeout : Nat) (b : CheckBehavior) : CheckingStateR :=
  let d := checkDeadline pc timeout
  match doneEvent b with
  | some (t, r) => if t < d then r else checkTimeoutResult pc timeout
  | none => checkTimeoutResult pc timeout

/-- Instant at which `runCheck` returns (used for the per-check duration). -/
def checkReturnTime (pc : Option Nat) (timeout : Nat) (b : CheckBehavior) : Nat :=
  let d := checkDeadline pc timeout
  match doneEvent b with
  | some (t, _) => if t < d then t else d
  | none => d

/-- The `CheckingResult` assembled by the goroutine body of `RunChecks` for one
registered check. -/
def mkCheckingResult (pc : Option Nat) (timeout : Nat) (c : CheckFunc) : CheckingResult :=
  let r := runCheck pc timeout c.behavior
  { state := r.state
    output := r.output
    name := c.name
    duration := checkReturnTime pc timeout c.behavior }

/-- Go zero value of `CheckingResult`, as produced by
`make([]CheckingResult, n)` (`State(0)` is healthy). -/
def zeroCheckingResult : CheckingResult := ⟨State.healthy, "", "", 0⟩

/-- The `healthcheck` struct of `daemon.go`. -/
structure HealthChecker where
  timeoutD : Int
  service : String
  environment : String
  version : String
  host : String
  goVersion : String
  checks : List CheckFunc
deriving DecidableEq, Repr

/-- `AddCheck` appends a named check to the registration list. -/
def HealthChecker.AddCheck (h : HealthChecker) (name : String) (b : CheckBehavior) :
    HealthChecker :=
  { h with checks := h.checks ++ [⟨name, b⟩] }

/-- `healthcheck.runtime()`. -/
def HealthChecker.runtimeInfo (h : HealthChecker) : Runtime :=
  ⟨h.host, h.goVersion, h.service, h.environment, h.version⟩

/-- Effective per-check timeout of `RunChecks`: the configured one, or
`DefaultTimeout` when it is zero or negative. -/
def effectiveTimeout (t : Int) : Nat :=
  if t ≤ 0 then DefaultTimeout else t.toNat

/-- The concurrent write phase of `RunChecks`: each goroutine `i` writes the
result for registered check `i` into slot `i` of the pre-sized slice `init`;
`order` is the order in which the goroutines complete their writes (any
interleaving the scheduler may produce). -/
def scatterWrite (cs : List CheckFunc) (f : CheckFunc → CheckingResult)
    (order : List Nat) (init : List CheckingResult) : List CheckingResult :=
  order.foldl
    (fun acc i =>
      match cs[i]? with
      | some c => acc.set i (f c)
      | none => acc)
    init

/-- `RunChecks` of `daemon.go`.  `pc` is the instant at which the caller's
context becomes done and `order` the completion order of the per-check
goroutines. -/
def HealthChecker.RunChecks (h : HealthChecker) (pc : Option Nat) (order : List Nat) :
    CheckingResults :=
  if h.checks.length ≤ 0 then
    { checks := [], duration := 0, runtimeInfo := h.runtimeInfo }
  else
    let timeout := effectiveTimeout h.timeoutD
    let ress := scatterWrite h.checks (mkCheckingResult pc timeout) order
      (List.replicate h.checks.length zeroCheckingResult)
    { checks := ress
      duration := (h.checks.map (fun c => checkReturnTime pc timeout c.behavior)).foldl max 0
      runtimeInfo := h.runtimeInfo }

end Healthcheck

namespace Grpcd

/-- gRPC status codes used by the interceptor pipeline
(`google.golang.org/grpc/codes`). -/
inductive Code
| ok
| canceled
| deadlineExceeded
| internal
deriving DecidableEq, Repr

/-- A non-nil `error` built by `status.Error(code, msg)`. -/
structure StatusError where
  code : Code
  msg : String
deriving DecidableEq, Repr

/-- Observable behaviour of a wrapped unary handler: it either returns a
(response, error) pair at some instant or panics at some instant. -/
inductive HandlerBehavior
| returns (t : Nat) (resp : Option String) (err : Option StatusError)
| panics (t : Nat) (v : String)
deriving DecidableEq, Repr

/-- Instant at which the handler's goroutine produces its event. -/
def eventTime : HandlerBehavior → Nat
| HandlerBehavior.returns t _ _ => t
| HandlerBehavior.panics t _ => t

/-- Log levels used by the interceptors. -/
inductive LogLevel
| info
| warn
| errorLevel
deriving DecidableEq, Repr

/-- One structured log record: level, the `stacktrace` field (empty when the
record carries none), the `WithError` text, and the message. -/
structure LogRecord where
  level : LogLevel
  stacktrace : String
  errText : String
  message : String
deriving DecidableEq, Repr

/-- What an interceptor invocation produces towards its caller: a normal
(response, error) return, or a propagating panic. -/
inductive UnaryOutcome
| ret (resp : Option String) (err : Option StatusError)
| panicked (v : String)
deriving DecidableEq, Repr

/-- Result of running an interceptor stack on one call: the outcome delivered
to the caller, the log records emitted (including those emitted later by an
abandoned handler goroutine), and whether the wrapped handler was ever
started. -/
structure ExecResult where
  outcome : UnaryOutcome
  logs : List LogRecord
  handlerInvoked : Bool
deriving DecidableEq, Repr

/-- `status.Error(codes.Canceled, "Canceled by caller")`. -/
def canceledStatus : StatusError := ⟨Code.canceled, "Canceled by caller"⟩

/-- `status.Error(codes.DeadlineExceeded, "Deadline exceeded")`. -/
def deadlineStatus : StatusError := ⟨Code.deadlineExceeded, "Deadline exceeded"⟩

/-- `status.Errorf(codes.Internal, "InternalServerError")` built by `Recovery`. -/
def internalStatus : StatusError := ⟨Code.internal, "InternalServerError"⟩

/-- A warn-level record without a stacktrace field. -/
def warnLog (e m : String) : LogRecord := ⟨LogLevel.warn, "", e, m⟩

/-- Model stand-in for the bytes of `debug.Stack()` captured by `Recovery`:
always a non-empty string. -/
def stackText : String := "goroutine stack trace"

/-- The error-level record `Recovery` emits for a recovered panic value `v`:
its `stacktrace` field is the (non-empty) captured stack. -/
def panicLog (v : String) : LogRecord :=
  ⟨LogLevel.errorLevel, stackText, v, "Caught panic in request"⟩

/-- Whether `ctx.Err() != nil` at instant `t` for a context done at `pc`. -/
def parentEndedBy (pc : Option Nat) (t : Nat) : Bool :=
  match pc with
  | some p => p ≤ t
  | none => false

/-- Instant at which `ctx2 := context.WithTimeout(ctx, dt)` becomes done (only
meaningful when `0 < dt`): the configured deadline, or the parent's
cancellation if that is earlier. -/
def deadlineAt (dt : Int) (pc : Option Nat) : Nat :=
  match pc with
  | some p => min dt.toNat p
  | none => dt.toNat

/-- The `Timeout(dt)` unary interceptor of `grpcd/entry.go` applied to one
call: `pc` is the instant at which the incoming context becomes done and `b`
the wrapped handler's behaviour.  It returns Canceled without starting the
handler when the incoming context is already done; runs the handler inline
when no positive timeout is configured; otherwise races the handler goroutine
against the deadline, re-raising handler panics in the waiting goroutine, and
on a fired deadline reports Canceled when the parent context ended first and
DeadlineExceeded otherwise. -/
def Timeout (dt : Int) (pc : Option Nat) (b : HandlerBehavior) : ExecResult :=
  if parentEndedBy pc 0 then
    { outcome := UnaryOutcome.ret none (some canceledStatus)
      logs := [warnLog "context canceled" "Caught canceled before processing the request"]
      handlerInvoked := false }
  else if dt ≤ 0 then
    match b with
    | HandlerBehavior.returns _ r e => ⟨UnaryOutcome.ret r e, [], true⟩
    | HandlerBehavior.panics _ v => ⟨UnaryOutcome.panicked v, [], true⟩
  else
    let d := deadlineAt dt pc
    if eventTime b < d then
      match b with
      | HandlerBehavior.returns _ r e => ⟨UnaryOutcome.ret r e, [], true⟩
      | HandlerBehavior.panics _ v => ⟨UnaryOutcome.panicked v, [], true⟩
    else
      if parentEndedBy pc d then
        { outcome := UnaryOutcome.ret none (some canceledStatus)
          logs := [warnLog "context canceled" "Caught canceled while processing the request"]
          handlerInvoked := true }
      else
        { outcome := UnaryOutcome.ret none (some deadlineStatus)
          logs := [warnLog "context deadline exceeded" "Caught timeout while processing the request"]
          handlerInvoked := true }

/-- The innermost `Recovery()` interceptor seen as a transformation of the
handler's behaviour: a panic at instant `t` becomes a normal return of the
generic Internal error at instant `t`; normal returns are unchanged. -/
def innerRecoveryBehavior : HandlerBehavior → HandlerBehavior
| HandlerBehavior.panics t _ => HandlerBehavior.returns t none (some internalStatus)
| b => b

/-- The log records the innermost `Recovery()` emits while transforming the
handler's behaviour (one error-level record with a stack trace on panic). -/
def innerRecoveryLogs : HandlerBehavior → List LogRecord
| HandlerBehavior.panics _ v => [panicLog v]
| _ => []

/-- The `Recovery()` interceptor of the grpcd package applied around an inner
result: a propagating panic is logged (error level, non-empty stacktrace
field) and replaced by the generic Internal error; normal returns pass
through untouched. -/
def Recovery (r : ExecResult) : ExecResult :=
  match r.outcome with
  | UnaryOutcome.panicked v =>
      { outcome := UnaryOutcome.ret none (some internalStatus)
        logs := r.logs ++ [panicLog v]
        handlerInvoked := r.handlerInvoked }
  | _ => r

/-- The panic-relevant slice of the chain built by `newUnaryInterceptor` in
`internal/grpcd/server.go`: `Recovery` outermost, then `Timeout(dt)`, then the
innermost `Recovery` directly around the handler (the other stages pass
responses and errors through verbatim).  The innermost recovery's log record
is emitted whenever the handler goroutine actually ran, even if the Timeout
stage abandoned it. -/
def chain (dt : Int) (pc : Option Nat) (b : HandlerBehavior) : ExecResult :=
  let tr := Timeout dt pc (innerRecoveryBehavior b)
  let tr2 : ExecResult :=
    { tr with logs := (if tr.handlerInvoked then innerRecoveryLogs b else []) ++ tr.logs }
  Recovery tr2

/-- `MetaKeyTraceID` of `entry.go`. -/
def MetaKeyTraceID : String := "Trace-ID"

/-- `MetaKeyUserAgent` of `entry.go`. -/
def MetaKeyUserAgent : String := "User-Agent"

/-- Incoming gRPC metadata: keys (stored lowercased, as the gRPC metadata
package does) each holding a list of values. -/
abbrev Metadata := List (String × List String)

/-- ASCII lowercasing of a metadata key, as `md.Get` performs. -/
def keyToLower (s : String) : String := String.mk (s.data.map Char.toLower)

/-- `headerValues` of `entry.go`: `md.Get(key)`, which lowercases the key. -/
def headerValues (md : Metadata) (key : String) : List String :=
  match (List.find? (fun kv => kv.1 == keyToLower key) md) with
  | some kv => kv.2
  | none => []

/-- True when `c` is an ASCII hexadecimal digit. -/
def isHexDigit (c : Char) : Bool :=
  c.isDigit || ('a' ≤ c && c ≤ 'f') || ('A' ≤ c && c ≤ 'F')

/-- Canonical 8-4-4-4-12 UUID shape over a character list. -/
def uuidCanonical (cs : List Char) : Bool :=
  cs.length == 36 &&
    (List.all cs.enum (fun ic =>
      if ic.1 == 8 || ic.1 == 13 || ic.1 == 18 || ic.1 == 23
      then ic.2 == '-' else isHexDigit ic.2))

/-- 32 hexadecimal characters with no dashes. -/
def uuidHex32 (cs : List Char) : Bool :=
  cs.length == 32 && cs.all isHexDigit

/-- Modelled from the spec: `uuid.Parse` of the google/uuid dependency is not
vendored under src/; the spec requires the caller-supplied trace id to be "a
syntactically valid identifier (a parseable UUID)".  Accepts the canonical
36-character form, the `urn:uuid:` prefixed form, the braced form, and the
32-character dashless form, as that parser does. -/
def isValidUUID (s : String) : Bool :=
  let cs := s.toList
  uuidCanonical cs
  || uuidHex32 cs
  || (match s.toLower.toList with
      | 'u' :: 'r' :: 'n' :: ':' :: 'u' :: 'u' :: 'i' :: 'd' :: ':' :: rest =>
          uuidCanonical rest
      | _ => false)
  || (match cs with
      | '\x7b' :: rest =>
          (rest.length == 37) && (rest.getLast? == some '\x7d')
            && uuidCanonical (rest.take 36)
      | _ => false)

/-- `EntryConfigs` of `entry.go`. -/
structure EntryConfigs where
  allowTraceIDFromRequest : Bool
  returnRequestIDInHeader : Bool
deriving DecidableEq, Repr

/-- `requestCtx` of `entry.go` (the fields `BuildRequestContext` fills). -/
structure RequestCtx where
  requestID : String
  traceID : String
  remoteAddr : String
  userAgent : String
deriving DecidableEq, Repr

/-- `traceIDFromIncomingMetadata` of `entry.go`: when trusting the request is
disabled, or the header is absent, or its first value is not a parseable
UUID, fall back to the freshly generated request id; otherwise use the
supplied value. -/
def traceIDFromIncomingMetadata (md : Metadata) (requestID : String) (readCtx : Bool) :
    String :=
  if !readCtx then requestID
  else
    match headerValues md MetaKeyTraceID with
    | [] => requestID
    | v0 :: _ => if !(isValidUUID v0) then requestID else v0

/-- `userAgentFromIncomingMetadata` of `entry.go`. -/
def userAgentFromIncomingMetadata (md : Metadata) : String :=
  match headerValues md MetaKeyUserAgent with
  | [] => ""
  | v0 :: _ => v0

/-- `BuildRequestContext` of `entry.go`.  `requestID` stands for the freshly
generated `newRequestID()` value and `resolvedRemoteAddr` for the result of
`remoteAddrFromIncomingMetadata` (IP-parsing helper not relevant to any
claim). -/
def BuildRequestContext (md : Metadata) (requestID resolvedRemoteAddr : String)
    (c : EntryConfigs) : RequestCtx :=
  { requestID := requestID
    traceID := traceIDFromIncomingMetadata md requestID c.allowTraceIDFromRequest
    remoteAddr := resolvedRemoteAddr
    userAgent := userAgentFromIncomingMetadata md }

/-- `logrus.Fields` restricted to string values: an association list in
insertion order. -/
abbrev Fields := List (String × String)

/-- Go map assignment `data[k] = v`: replace the binding if the key exists,
append it otherwise. -/
def setField (fs : Fields) (k v : String) : Fields :=
  if List.any fs (fun kv => kv.1 == k)
  then List.map (fun kv => if kv.1 == k then (k, v) else kv) fs
  else fs ++ [(k, v)]

/-- Go map read `data[k]` (first binding for `k`, if any). -/
def getField (fs : Fields) (k : String) : Option String :=
  Option.map (fun kv => kv.2) (List.find? (fun kv => kv.1 == k) fs)

/-- Error message both append operations return when the extra-fields store is
absent from the context. -/
def noScopeErrText : String :=
  "cannot find entry logger in the context, did you forget to chain EntryLogs interceptor?"

/-- `AppendFieldIntoEntryLogger` of the grpcd package: the context either holds
the extra-fields store installed by `EntryLogs` (`some fs`) or not (`none`);
the result is the returned error paired, on success, with the mutated store. -/
def AppendFieldIntoEntryLogger (ctxFields : Option Fields) (key value : String) :
    Except String Fields :=
  match ctxFields with
  | none => Except.error noScopeErrText
  | some data => Except.ok (setField data key value)

/-- `AppendFieldsIntoEntryLogger` of the grpcd package: as the single-field
variant, merging every given binding into the store. -/
def AppendFieldsIntoEntryLogger (ctxFields : Option Fields) (fields : Fields) :
    Except String Fields :=
  match ctxFields with
  | none => Except.error noScopeErrText
  | some data => Except.ok (List.foldl (fun acc kv => setField acc kv.1 kv.2) data fields)

end Grpcd

namespace Healthcheck

/-- The `&&`-fold of a boolean predicate over a list equals the seed conjoined
with `List.all`. -/
theorem foldl_and_eq_all (p : CheckingResult → Bool) :
    ∀ (l : List CheckingResult) (b : Bool),
      l.foldl (fun acc check => acc && p check) b = (b && l.all p) := by
  intro l
  induction l with
  | nil => intro b; simp
  | cons x xs ih =>
      intro b
      simp [List.foldl_cons, ih, List.all_cons, Bool.and_assoc]

/-- `GetState` rewritten with `List.all` in place of the source's boolean folds. -/
theorem GetState_eq (c : CheckingResults) :
    c.GetState =
      if c.checks.length ≤ 0 then State.unhealthy
      else if c.checks.all (fun ch => ch.state == State.healthy) then State.healthy
      else if c.checks.all
          (fun ch => ch.state == State.healthy || ch.state == State.degraded) then State.degraded
      else State.unhealthy := by
  unfold CheckingResults.GetState
  rw [foldl_and_eq_all, foldl_and_eq_all]
  simp

theorem length_pos_of_ne_nil {c : CheckingResults} (h : c.checks ≠ []) :
    ¬ c.checks.length ≤ 0 := by
  cases hc : c.checks with
  | nil => exact absurd hc h
  | cons a l => simp [hc]

/-- C5: with zero checks `IsHealthy` is false and `GetState` is unhealthy; with
every check healthy (and at least one check) `GetState` is healthy; with at
least one degraded check and the rest healthy, `IsHealthy` and `IsDegraded`
are true and `GetState` is degraded; with at least one unhealthy check,
`IsHealthy` is false. -/
theorem checkingResults_rollup :
    (∀ (d : Nat) (rt : Runtime),
        CheckingResults.IsHealthy ⟨[], d, rt⟩ = false
        ∧ CheckingResults.GetState ⟨[], d, rt⟩ = State.unhealthy)
  ∧ (∀ c : CheckingResults, c.checks ≠ [] →
        (∀ ch ∈ c.checks, ch.state = State.healthy) → c.GetState = State.healthy)
  ∧ (∀ c : CheckingResults,
        (∃ ch ∈ c.checks, ch.state = State.degraded) →
        (∀ ch ∈ c.checks, ch.state = State.healthy ∨ ch.state = State.degraded) →
        c.IsHealthy = true ∧ c.IsDegraded = true ∧ c.GetState = State.degraded)
  ∧ (∀ c : CheckingResults,
        (∃ ch ∈ c.checks, ch.state = State.unhealthy) → c.IsHealthy = false) := by
  refine ⟨?_, ?_, ?_, ?_⟩
  · intro d rt
    constructor
    · simp [CheckingResults.IsHealthy]
    · simp [CheckingResults.GetState]
  · intro c hne hall
    have hlen := length_pos_of_ne_nil hne
    have h1 : c.checks.all (fun ch => ch.state == State.healthy) = true := by
      rw [List.all_eq_true]
      intro ch hch
      simp [hall ch hch]
    rw [GetState_eq, if_neg hlen, if_pos h1]
  · rintro c ⟨ch, hmem, hdeg⟩ hall
    have hlen := length_pos_of_ne_nil (List.ne_nil_of_mem hmem)
    have hhd : c.checks.all
        (fun x => x.state == State.healthy || x.state == State.degraded) = true := by
      rw [List.all_eq_true]
      intro x hx
      rcases hall x hx with h | h <;> simp [h]
    have hnh : ¬ (c.checks.all (fun x => x.state == State.healthy) = true) := by
      intro hcond
      have := List.all_eq_true.mp hcond ch hmem
      rw [hdeg] at this
      simp at this
    refine ⟨?_, ?_, ?_⟩
    · unfold CheckingResults.IsHealthy
      rw [if_neg hlen]
      exact hhd
    · unfold CheckingResults.IsDegraded
      rw [if_neg hlen, List.any_eq_true]
      exact ⟨ch, hmem, by simp [hdeg]⟩
    · rw [GetState_eq, if_neg hlen, if_neg hnh, if_pos hhd]
  · rintro c ⟨ch, hmem, hun⟩
    have hlen := length_pos_of_ne_nil (List.ne_nil_of_mem hmem)
    unfold CheckingResults.IsHealthy
    rw [if_neg hlen, List.all_eq_false]
    exact ⟨ch, hmem, by simp [hun]⟩

theorem checkingResults_rollup_witness :
    (∃ ch ∈ (⟨[⟨State.degraded, "", "a", 0⟩, ⟨State.healthy, "", "b", 0⟩], 0,
        ⟨"", "", "", "", ""⟩⟩ : CheckingResults).checks, ch.state = State.degraded)
    ∧ CheckingResults.IsHealthy
        ⟨[⟨State.degraded, "", "a", 0⟩, ⟨State.healthy, "", "b", 0⟩], 0,
          ⟨"", "", "", "", ""⟩⟩ = true
    ∧ CheckingResults.IsDegraded
        ⟨[⟨State.degraded, "", "a", 0⟩, ⟨State.healthy, "", "b", 0⟩], 0,
          ⟨"", "", "", "", ""⟩⟩ = true
    ∧ CheckingResults.GetState
        ⟨[⟨State.degraded, "", "a", 0⟩, ⟨State.healthy, "", "b", 0⟩], 0,
          ⟨"", "", "", "", ""⟩⟩ = State.degraded := by
  refine ⟨by decide, ?_⟩
  exact checkingResults_rollup.2.2.1 _ (by decide) (by decide)

/-- C8: serializing any of the four defined states to its string form and
deserializing it back yields the original state with a nil error, and
deserializing any string that is none of the four defined names yields the
unknown state with a nil error. -/
theorem state_string_roundtrip :
    (∀ s : State, unmarshalState (State.toName s) = (s, none))
  ∧ (∀ str : String, str ≠ "healthy" → str ≠ "degraded" → str ≠ "unhealthy" →
      str ≠ "unknown" → unmarshalState str = (State.unknown, none)) := by
  constructor
  · intro s
    cases s <;> rfl
  · intro str h1 h2 h3 h4
    simp [unmarshalState, nameToState, h1, h2, h3, h4]

theorem state_string_roundtrip_witness :
    unmarshalState "bogus" = (State.unknown, none)
    ∧ unmarshalState (State.toName State.degraded) = (State.degraded, none) :=
  ⟨state_string_roundtrip.2 "bogus" (by decide) (by decide) (by decide) (by decide),
   state_string_roundtrip.1 State.degraded⟩

/-- C10: `GetState` never yields the unknown state, and any check whose own
state is unknown or unhealthy forces the overall state to unhealthy. -/
theorem getState_never_unknown :
    (∀ c : CheckingResults, c.GetState ≠ State.unknown)
  ∧ (∀ c : CheckingResults,
      (∃ ch ∈ c.checks, ch.state = State.unknown ∨ ch.state = State.unhealthy) →
      c.GetState = State.unhealthy) := by
  constructor
  · intro c
    rw [GetState_eq]
    split_ifs <;> simp
  · rintro c ⟨ch, hmem, hst⟩
    have hlen := length_pos_of_ne_nil (List.ne_nil_of_mem hmem)
    have h1 : ¬ (c.checks.all (fun x => x.state == State.healthy) = true) := by
      intro hcond
      have := List.all_eq_true.mp hcond ch hmem
      rcases hst with h | h <;> rw [h] at this <;> simp at this
    have h2 : ¬ (c.checks.all
        (fun x => x.state == State.healthy || x.state == State.degraded) = true) := by
      intro hcond
      have := List.all_eq_true.mp hcond ch hmem
      rcases hst with h | h <;> rw [h] at this <;> simp at this
    rw [GetState_eq, if_neg hlen, if_neg h1, if_neg h2]

theorem getState_never_unknown_witness :
    CheckingResults.GetState
      ⟨[⟨State.healthy, "", "a", 0⟩, ⟨State.unknown, "", "b", 0⟩], 0,
        ⟨"", "", "", "", ""⟩⟩ = State.unhealthy :=
  getState_never_unknown.2 _ (by decide)

end Healthcheck

namespace Grpcd

/-- C1: when a positive timeout fires before the handler produces its event
(and the incoming context was not pre-canceled), the Timeout interceptor
returns an error whose code is Canceled exactly when the parent context had
ended by the firing instant and DeadlineExceeded exactly when it had not —
the two causes are never confused. -/
theorem timeout_cause_attribution (dt : Int) (pc : Option Nat) (b : HandlerBehavior)
    (hdt : 0 < dt) (hpre : parentEndedBy pc 0 = false)
    (hslow : deadlineAt dt pc < eventTime b) :
    ∃ st : StatusError,
      (Timeout dt pc b).outcome = UnaryOutcome.ret none (some st)
      ∧ (st.code = Code.canceled ↔ parentEndedBy pc (deadlineAt dt pc) = true)
      ∧ (st.code = Code.deadlineExceeded ↔ parentEndedBy pc (deadlineAt dt pc) = false) := by
  have hdt' : ¬ dt ≤ 0 := by omega
  have hev : ¬ eventTime b < deadlineAt dt pc := by omega
  cases h : parentEndedBy pc (deadlineAt dt pc) with
  | true =>
      refine ⟨canceledStatus, ?_, ?_, ?_⟩
      · simp [Timeout, hpre, hdt', hev, h]
      · simp [canceledStatus]
      · simp [canceledStatus, h]
  | false =>
      refine ⟨deadlineStatus, ?_, ?_, ?_⟩
      · simp [Timeout, hpre, hdt', hev, h]
      · simp [deadlineStatus, h]
      · simp [deadlineStatus]

theorem timeout_cause_attribution_witness :
    ∃ st : StatusError,
      (Timeout 5 none (HandlerBehavior.returns 10 none none)).outcome
          = UnaryOutcome.ret none (some st)
      ∧ (st.code = Code.canceled ↔ parentEndedBy none (deadlineAt 5 none) = true)
      ∧ (st.code = Code.deadlineExceeded ↔ parentEndedBy none (deadlineAt 5 none) = false) :=
  timeout_cause_attribution 5 none (HandlerBehavior.returns 10 none none)
    (by decide) (by decide) (by decide)

/-- C2: when the incoming context is already done before the handler starts,
the Timeout interceptor returns Canceled and never starts the handler,
whatever timeout is configured. -/
theorem timeout_precanceled_skips_handler (dt : Int) (b : HandlerBehavior) :
    (Timeout dt (some 0) b).outcome = UnaryOutcome.ret none (some canceledStatus)
    ∧ (Timeout dt (some 0) b).handlerInvoked = false := by
  constructor <;> simp [Timeout, parentEndedBy]

/-- C4 counterexample: with a 5-tick timeout, a caller context canceled at tick
1 and a handler returning (resp, nil) at tick 2 — before the configured
timeout elapses — the interceptor returns Canceled instead of the handler's
response, so the pass-through claim as stated fails. -/
theorem timeout_passthrough_cex :
    2 < 5
    ∧ (Timeout 5 (some 1) (HandlerBehavior.returns 2 (some "resp") none)).outcome
        ≠ UnaryOutcome.ret (some "resp") none
    ∧ (Timeout 5 (some 1) (HandlerBehavior.returns 2 (some "resp") none)).outcome
        = UnaryOutcome.ret none (some canceledStatus) := by
  refine ⟨by decide, by decide, by decide⟩

/-- C4 (amended): when a positive timeout is configured, the incoming context
is not pre-canceled, and the handler returns before both the configured
deadline and any caller cancellation, the Timeout interceptor propagates the
handler's response and error verbatim. -/
theorem timeout_passthrough (dt : Int) (pc : Option Nat) (t : Nat) (r : Option String)
    (e : Option StatusError) (hdt : 0 < dt) (hpre : parentEndedBy pc 0 = false)
    (hfast : t < deadlineAt dt pc) :
    (Timeout dt pc (HandlerBehavior.returns t r e)).outcome = UnaryOutcome.ret r e := by
  have hdt' : ¬ dt ≤ 0 := by omega
  simp [Timeout, hpre, hdt', eventTime, hfast]

theorem timeout_passthrough_witness :
    (Timeout 5 none (HandlerBehavior.returns 2 (some "ok")
        (some ⟨Code.internal, "boom"⟩))).outcome
      = UnaryOutcome.ret (some "ok") (some ⟨Code.internal, "boom"⟩) :=
  timeout_passthrough 5 none 2 (some "ok") (some ⟨Code.internal, "boom"⟩)
    (by decide) (by decide) (by decide)

/-- C3 counterexample: with a 5-tick timeout and a handler that panics at tick
10 (after the deadline fired), the full chain returns DeadlineExceeded to the
caller, not the generic Internal error, so the claim as stated fails. -/
theorem chain_panic_cex :
    (chain 5 none (HandlerBehavior.panics 10 "boom")).outcome
        = UnaryOutcome.ret none (some deadlineStatus)
    ∧ (chain 5 none (HandlerBehavior.panics 10 "boom")).outcome
        ≠ UnaryOutcome.ret none (some internalStatus) := by
  refine ⟨by decide, by decide⟩

/-- C3 (amended): for every call whose handler panics before the Timeout
Guard's deadline fires (or with no positive timeout configured), the chain
Recovery-Timeout-Recovery returns exactly one Internal error whose message is
the generic "InternalServerError", and exactly one error-level log record
carrying a non-empty stacktrace field is emitted; moreover a panic reaching
the Timeout Guard's background goroutine is re-raised in the waiting
goroutine rather than swallowed. -/
theorem chain_panic_internal :
    (∀ (dt : Int) (pc : Option Nat) (t : Nat) (v : String),
        parentEndedBy pc 0 = false →
        (dt ≤ 0 ∨ t < deadlineAt dt pc) →
        (chain dt pc (HandlerBehavior.panics t v)).outcome
            = UnaryOutcome.ret none (some internalStatus)
        ∧ ((chain dt pc (HandlerBehavior.panics t v)).logs.countP
              (fun l => l.level == LogLevel.errorLevel && l.stacktrace != "")) = 1
        ∧ internalStatus.msg = "InternalServerError")
  ∧ (∀ (dt : Int) (pc : Option Nat) (t : Nat) (v : String),
        0 < dt → parentEndedBy pc 0 = false → t < deadlineAt dt pc →
        (Timeout dt pc (HandlerBehavior.panics t v)).outcome = UnaryOutcome.panicked v) := by
  constructor
  · intro dt pc t v hpre hfast
    by_cases hdt : dt ≤ 0
    · refine ⟨?_, ?_, rfl⟩
      · simp [chain, Timeout, innerRecoveryBehavior, innerRecoveryLogs, Recovery, hpre, hdt]
      · simp [chain, Timeout, innerRecoveryBehavior, innerRecoveryLogs, Recovery, hpre, hdt,
          List.countP_cons, List.countP_nil, panicLog, warnLog, stackText]
    · have ht : t < deadlineAt dt pc := by
        rcases hfast with h | h
        · exact absurd h hdt
        · exact h
      refine ⟨?_, ?_, rfl⟩
      · simp [chain, Timeout, innerRecoveryBehavior, innerRecoveryLogs, Recovery, hpre, hdt,
          eventTime, ht]
      · simp [chain, Timeout, innerRecoveryBehavior, innerRecoveryLogs, Recovery, hpre, hdt,
          eventTime, ht, List.countP_cons, List.countP_nil, panicLog, warnLog, stackText]
  · intro dt pc t v hdt hpre ht
    have hdt' : ¬ dt ≤ 0 := by omega
    simp [Timeout, hpre, hdt', eventTime, ht]

theorem chain_panic_internal_witness :
    ((chain 5 none (HandlerBehavior.panics 1 "boom")).outcome
        = UnaryOutcome.ret none (some internalStatus))
    ∧ ((Timeout 5 none (HandlerBehavior.panics 1 "boom")).outcome
        = UnaryOutcome.panicked "boom") :=
  ⟨(chain_panic_internal.1 5 none 1 "boom" (by decide) (Or.inr (by decide))).1,
   chain_panic_internal.2 5 none 1 "boom" (by decide) (by decide) (by decide)⟩

end Grpcd

namespace Grpcd

/-- C7: the built request context's trace id equals the caller-supplied first
trace-header value iff trusting caller trace ids is enabled and that value is
a parseable UUID; with trust disabled, with the header absent, or with an
invalid value, the trace id is the freshly generated request id (whose global
uniqueness is modelled by the hypothesis that no supplied header value
coincides with it). -/
theorem buildRequestContext_traceID (md : Metadata) (requestID ra : String)
    (c : EntryConfigs)
    (hfresh : ∀ v ∈ headerValues md MetaKeyTraceID, v ≠ requestID) :
    (∀ v0 rest, headerValues md MetaKeyTraceID = v0 :: rest →
        ((BuildRequestContext md requestID ra c).traceID = v0
          ↔ (c.allowTraceIDFromRequest = true ∧ isValidUUID v0 = true)))
    ∧ ((headerValues md MetaKeyTraceID = [] ∨ c.allowTraceIDFromRequest = false) →
        (BuildRequestContext md requestID ra c).traceID = requestID)
    ∧ (∀ v0 rest, headerValues md MetaKeyTraceID = v0 :: rest → isValidUUID v0 = false →
        (BuildRequestContext md requestID ra c).traceID = requestID) := by
  refine ⟨?_, ?_, ?_⟩
  · intro v0 rest hv
    have hne : v0 ≠ requestID := hfresh v0 (by rw [hv]; exact List.mem_cons_self v0 rest)
    constructor
    · intro htr
      cases hallow : c.allowTraceIDFromRequest with
      | false =>
          rw [BuildRequestContext] at htr
          simp [traceIDFromIncomingMetadata, hallow] at htr
          exact absurd htr.symm hne
      | true =>
          cases hvalid : isValidUUID v0 with
          | false =>
              rw [BuildRequestContext] at htr
              simp [traceIDFromIncomingMetadata, hallow, hv, hvalid] at htr
              exact absurd htr.symm hne
          | true => exact ⟨rfl, rfl⟩
    · rintro ⟨hallow, hvalid⟩
      simp [BuildRequestContext, traceIDFromIncomingMetadata, hallow, hv, hvalid]
  · rintro (h | h)
    · cases hallow : c.allowTraceIDFromRequest <;>
        simp [BuildRequestContext, traceIDFromIncomingMetadata, hallow, h]
    · simp [BuildRequestContext, traceIDFromIncomingMetadata, h]
  · intro v0 rest hv hinv
    cases hallow : c.allowTraceIDFromRequest <;>
      simp [BuildRequestContext, traceIDFromIncomingMetadata, hallow, hv, hinv]

theorem buildRequestContext_traceID_witness :
    (BuildRequestContext [("trace-id", ["3b241101-e2bb-4255-8caf-4136c566a962"])]
        "rid" "" ⟨true, false⟩).traceID = "3b241101-e2bb-4255-8caf-4136c566a962" :=
  ((buildRequestContext_traceID
      [("trace-id", ["3b241101-e2bb-4255-8caf-4136c566a962"])] "rid" "" ⟨true, false⟩
      (by decide)).1
    "3b241101-e2bb-4255-8caf-4136c566a962" [] (by decide)).mpr (by decide)

end Grpcd

namespace Grpcd

theorem find?_map_set (k v : String) :
    ∀ fs : Fields, List.any fs (fun kv => kv.1 == k) = true →
      List.find? (fun kv => kv.1 == k)
          (List.map (fun kv => if kv.1 == k then (k, v) else kv) fs) = some (k, v) := by
  intro fs
  induction fs with
  | nil => intro h; simp at h
  | cons x xs ih =>
      intro h
      cases hx : (x.1 == k) with
      | true =>
          rw [List.map_cons,
            show (if x.1 == k then (k, v) else x) = (k, v) from by rw [if_pos hx]]
          exact List.find?_cons_of_pos _ (by simp)
      | false =>
          rw [List.any_cons, hx, Bool.false_or] at h
          simp only [List.map_cons, hx, if_false, Bool.false_eq_true]
          rw [List.find?_cons_of_neg _ (by simp [hx])]
          exact ih h

theorem find?_append_single (k v : String) :
    ∀ fs : Fields, List.any fs (fun kv => kv.1 == k) = false →
      List.find? (fun kv => kv.1 == k) (fs ++ [(k, v)]) = some (k, v) := by
  intro fs
  induction fs with
  | nil => simp
  | cons x xs ih =>
      intro h
      rw [List.any_cons, Bool.or_eq_false_iff] at h
      rw [List.cons_append, List.find?_cons_of_neg _ (by simp [h.1])]
      exact ih h.2

/-- Looking up the just-assigned key after a Go map assignment yields the
assigned value. -/
theorem getField_setField (fs : Fields) (k v : String) :
    getField (setField fs k v) k = some v := by
  unfold setField getField
  cases h : List.any fs (fun kv => kv.1 == k) with
  | true => rw [if_pos rfl, find?_map_set k v fs h]; rfl
  | false => rw [if_neg (by simp [h]), find?_append_single k v fs h]; rfl

/-- C9: invoked without the EntryLogs stage chained (no extra-fields store in
the context), both append operations return the descriptive non-empty error;
with the store present they succeed and record the given field(s). -/
theorem appendField_requires_scope :
    (∀ k v : String,
        AppendFieldIntoEntryLogger none k v = Except.error noScopeErrText
        ∧ noScopeErrText ≠ "")
  ∧ (∀ fields : Fields,
        AppendFieldsIntoEntryLogger none fields = Except.error noScopeErrText)
  ∧ (∀ (fs : Fields) (k v : String),
        AppendFieldIntoEntryLogger (some fs) k v = Except.ok (setField fs k v)
        ∧ getField (setField fs k v) k = some v)
  ∧ (∀ (fs : Fields) (k v : String),
        AppendFieldsIntoEntryLogger (some fs) [(k, v)] = Except.ok (setField fs k v)
        ∧ getField (setField fs k v) k = some v) := by
  refine ⟨?_, ?_, ?_, ?_⟩
  · intro k v
    exact ⟨rfl, by decide⟩
  · intro fields
    rfl
  · intro fs k v
    exact ⟨rfl, getField_setField fs k v⟩
  · intro fs k v
    exact ⟨rfl, getField_setField fs k v⟩

theorem appendField_requires_scope_witness :
    (AppendFieldIntoEntryLogger none "k" "v" = Except.error noScopeErrText
      ∧ noScopeErrText ≠ "")
    ∧ getField (setField [("a", "1")] "k" "v") "k" = some "v" :=
  ⟨appendField_requires_scope.1 "k" "v",
   (appendField_requires_scope.2.2.1 [("a", "1")] "k" "v").2⟩

end Grpcd

namespace Healthcheck

theorem scatterWrite_cons (cs : List CheckFunc) (f : CheckFunc → CheckingResult)
    (j : Nat) (rest : List Nat) (init : List CheckingResult) :
    scatterWrite cs f (j :: rest) init
      = scatterWrite cs f rest
          (match cs[j]? with
           | some c => init.set j (f c)
           | none => init) := rfl

theorem scatterWrite_length (cs : List CheckFunc) (f : CheckFunc → CheckingResult) :
    ∀ (order : List Nat) (init : List CheckingResult),
      (scatterWrite cs f order init).length = init.length := by
  intro order
  induction order with
  | nil => intro init; rfl
  | cons j rest ih =>
      intro init
      rw [scatterWrite_cons, ih]
      cases hj : cs[j]? with
      | none => simp
      | some c => simp [List.length_set]

/-- A slot whose goroutine has not completed yet still holds its initial
value. -/
theorem scatterWrite_get_not_mem (cs : List CheckFunc) (f : CheckFunc → CheckingResult) :
    ∀ (order : List Nat) (init : List CheckingResult) (i : Nat), i ∉ order →
      (scatterWrite cs f order init)[i]? = init[i]? := by
  intro order
  induction order with
  | nil => intro init i _; rfl
  | cons j rest ih =>
      intro init i hi
      have hij : i ≠ j := fun h => hi (h ▸ List.mem_cons_self j rest)
      have hir : i ∉ rest := fun h => hi (List.mem_cons_of_mem j h)
      rw [scatterWrite_cons, ih _ i hir]
      cases hj : cs[j]? with
      | none => simp
      | some c => simp [List.getElem?_set_ne (Ne.symm hij)]

/-- Once goroutine `i` has completed, slot `i` holds the result for registered
check `i`, whatever the completion order was. -/
theorem scatterWrite_get_mem (cs : List CheckFunc) (f : CheckFunc → CheckingResult) :
    ∀ (order : List Nat) (init : List CheckingResult) (i : Nat),
      i ∈ order → (hlt : i < cs.length) → init.length = cs.length →
      (scatterWrite cs f order init)[i]? = (cs[i]?).map f := by
  intro order
  induction order with
  | nil => intro init i hi _ _; exact absurd hi (List.not_mem_nil i)
  | cons j rest ih =>
      intro init i hi hlt hlen
      by_cases hr : i ∈ rest
      · rw [scatterWrite_cons]
        refine ih _ i hr hlt ?_
        cases hj : cs[j]? with
        | none => exact hlen
        | some c => simp [List.length_set, hlen]
      · have hij : i = j := by
          rcases List.mem_cons.mp hi with h | h
          · exact h
          · exact absurd h hr
        subst hij
        rw [scatterWrite_cons, scatterWrite_get_not_mem cs f rest _ i hr]
        have hsome : cs[i]? = some (cs.get ⟨i, hlt⟩) := List.getElem?_eq_getElem hlt
        simp only [hsome, Option.map_some']
        exact List.getElem?_set_eq_of_lt _ (by rw [hlen]; exact hlt)

/-- Whatever order the goroutines complete in, as long as every one of them
does, the final slice is the registration-order map of the per-check
outcomes. -/
theorem scatterWrite_eq_map (cs : List CheckFunc) (f : CheckFunc → CheckingResult)
    (order : List Nat) (hcover : ∀ i, i < cs.length → i ∈ order) :
    scatterWrite cs f order (List.replicate cs.length zeroCheckingResult)
      = cs.map f := by
  apply List.ext_getElem?
  intro i
  by_cases hlt : i < cs.length
  · rw [scatterWrite_get_mem cs f order _ i (hcover i hlt) hlt (by simp),
      List.getElem?_map]
  · have hge : cs.length ≤ i := Nat.le_of_not_lt hlt
    have h1 : (scatterWrite cs f order (List.replicate cs.length zeroCheckingResult))[i]?
        = none := by
      apply List.getElem?_eq_none
      rw [scatterWrite_length]
      simpa using hge
    have h2 : (cs.map f)[i]? = none := by
      apply List.getElem?_eq_none
      simpa using hge
    rw [h1, h2]

end Healthcheck

namespace Healthcheck

/-- C6: for every non-empty registered check set and every goroutine completion
order that covers all checks, `RunChecks` yields exactly one outcome per
registered check, in registration order, independent of the completion order;
in particular, registering A (always healthy, immediate) and B (sleeping past
its timeout) yields A healthy and B unknown, both present, in registration
order, for any positive timeout and any covering completion order. -/
theorem runChecks_registration_order :
    (∀ (hc : HealthChecker) (pc : Option Nat) (order : List Nat),
        (∀ i, i < hc.checks.length → i ∈ order) →
        hc.checks ≠ [] →
        (hc.RunChecks pc order).checks
          = hc.checks.map (mkCheckingResult pc (effectiveTimeout hc.timeoutD)))
  ∧ (∀ (T : Int) (sv en ve ho go : String) (order : List Nat),
        0 < T → 0 ∈ order → 1 ∈ order →
        (HealthChecker.RunChecks
            ⟨T, sv, en, ve, ho, go,
              [⟨"A", CheckBehavior.completes 0 State.healthy "ok"⟩,
               ⟨"B", CheckBehavior.never⟩]⟩ none order).checks
          = [⟨State.healthy, "ok", "A", 0⟩,
             ⟨State.unknown, "checking timeout: context deadline exceeded", "B",
               T.toNat⟩]) := by
  have main : ∀ (hc : HealthChecker) (pc : Option Nat) (order : List Nat),
      (∀ i, i < hc.checks.length → i ∈ order) →
      hc.checks ≠ [] →
      (hc.RunChecks pc order).checks
        = hc.checks.map (mkCheckingResult pc (effectiveTimeout hc.timeoutD)) := by
    intro hc pc order hcover hne
    have hlen : ¬ hc.checks.length ≤ 0 := by
      cases h : hc.checks with
      | nil => exact absurd h hne
      | cons a l => simp [h]
    unfold HealthChecker.RunChecks
    rw [if_neg hlen]
    exact scatterWrite_eq_map hc.checks (mkCheckingResult pc (effectiveTimeout hc.timeoutD))
      order hcover
  refine ⟨main, ?_⟩
  intro T sv en ve ho go order hT h0 h1
  have hT' : ¬ (T ≤ 0) := by omega
  have hTn : 0 < T.toNat := by omega
  rw [main ⟨T, sv, en, ve, ho, go,
      [⟨"A", CheckBehavior.completes 0 State.healthy "ok"⟩, ⟨"B", CheckBehavior.never⟩]⟩
      none order ?cover (by simp)]
  case cover =>
    intro i hi
    have : i = 0 ∨ i = 1 := by
      simp at hi
      omega
    rcases this with h | h
    · rw [h]; exact h0
    · rw [h]; exact h1
  simp [mkCheckingResult, runCheck, checkReturnTime, doneEvent, checkDeadline,
    checkTimeoutResult, effectiveTimeout, hT', hTn]

theorem runChecks_registration_order_witness :
    (HealthChecker.RunChecks
        ⟨7, "s", "e", "v", "h", "g",
          [⟨"A", CheckBehavior.completes 0 State.healthy "ok"⟩,
           ⟨"B", CheckBehavior.never⟩]⟩ none [1, 0]).checks
      = [⟨State.healthy, "ok", "A", 0⟩,
         ⟨State.unknown, "checking timeout: context deadline exceeded", "B",
           Int.toNat 7⟩] :=
  runChecks_registration_order.2 7 "s" "e" "v" "h" "g" [1, 0]
    (by decide) (by decide) (by decide)

end Healthcheck
